import Mathlib

/-!
Verification of the ScamGuard real-time audio fraud detection core.

This file shallowly embeds the scam-analysis engine of the repository:

* the edge function `supabase/functions/analyze-scam/index.ts`
  (input validation, the rule-based branch used when no API key is
  configured, and the AI-response parsing / indicator backfill), and
* the client hook `useScamAnalysis` from the same source tree
  (`ruleBasedScamAnalysis`, the localized guidance table, and the
  interval / debounce scheduling logic).

Transcripts are modelled as `List Char` (JS strings); scores as `Int`
(JS numbers on these paths are integer-valued); the JSON values flowing
through the AI path as an inductive `JsValue`; the event-loop scheduler
as an explicit step function over a session state, with timer firings
and transcript appends as atomic events (the dispatch path of the hook
is synchronous rule-based analysis, so each dispatch completes inside
the event that starts it).
-/

namespace ScamGuard

/-! ## String primitives (JS `toLowerCase`, `trim`, `includes`) -/

/-- JS whitespace test used by `String.prototype.trim`
(modelled by Unicode whitespace on `Char`). -/
def isWS (c : Char) : Bool := c.isWhitespace

/-- JS `String.prototype.toLowerCase` (the transcripts and keywords in the
source are ASCII, where `Char.toLower` agrees with JS). -/
def lowerCL (l : List Char) : List Char := l.map Char.toLower

/-- JS `String.prototype.trim`: drop leading and trailing whitespace. -/
def trimCL (l : List Char) : List Char :=
  ((l.dropWhile isWS).reverse.dropWhile isWS).reverse

/-- Does `hay` start with `needle`? (helper for `containsSub`). -/
def startsWithCL : List Char → List Char → Bool
  | [], _ => true
  | _ :: _, [] => false
  | a :: as, b :: bs => a == b && startsWithCL as bs

/-- JS `String.prototype.includes`: substring containment of `needle`
in the second argument. -/
def containsSub (needle : List Char) : List Char → Bool
  | [] => needle.isEmpty
  | c :: rest => startsWithCL needle (c :: rest) || containsSub needle rest

/-- The normalization both scorers apply first:
`transcript.toLowerCase().trim()`. -/
def normText (transcript : List Char) : List Char := trimCL (lowerCL transcript)

/-! ## Pattern tables -/

/-- One row of a rule-based scoring table:
`{ id, keywords, weight }` in the source. -/
structure PatternRule where
  id : String
  keywords : List String
  weight : Int
deriving DecidableEq

/-- `keywords.some((kw) => text.includes(kw))` in both scorers. -/
def ruleMatches (p : PatternRule) (text : List Char) : Bool :=
  p.keywords.any (fun kw => containsSub kw.data text)

/-- Raw (pre-clamp) score of a pattern table on a normalized text:
the accumulation `if (found) riskScore += weight` over the table. -/
def rawScoreOf (pats : List PatternRule) (text : List Char) : Int :=
  (pats.map (fun p => if ruleMatches p text then p.weight else 0)).sum

/-- The pattern table of the edge function's rule-based branch
(`supabase/functions/analyze-scam/index.ts`, the `patterns` constant of
the no-API-key branch). -/
def edgePatterns : List PatternRule :=
  [ ⟨"impersonation", ["bank", "bank se", "from bank", "rbi", "government", "police", "tax department"], 25⟩,
    ⟨"otp_request", ["otp", "share otp", "otp batao", "pin", "cvv", "password"], 30⟩,
    ⟨"urgency", ["immediately", "urgent", "account blocked", "account will be blocked", "act now"], 25⟩,
    ⟨"authority", ["arrest", "police", "legal", "case", "fine"], 20⟩,
    ⟨"money_request", ["transfer", "upi", "gift card", "pay"], 25⟩ ]

/-- The pattern table of the client hook's `ruleBasedScamAnalysis`. -/
def clientPatterns : List PatternRule :=
  [ ⟨"impersonation", ["bank", "bank se", "from bank", "rbi", "government", "police", "tax department", "income tax", "sbi", "hdfc", "icici"], 25⟩,
    ⟨"otp_request", ["otp", "share otp", "otp batao", "otp bhejo", "pin", "cvv", "password", "verify code"], 30⟩,
    ⟨"urgency", ["immediately", "urgent", "right now", "account blocked", "account will be blocked", "suspend", "act now"], 25⟩,
    ⟨"authority", ["arrest", "police", "legal", "case", "fine", "court"], 20⟩,
    ⟨"money_request", ["transfer", "upi", "gift card", "pay", "send money"], 25⟩,
    ⟨"emotional", ["emergency", "help", "save", "fear", "threat"], 15⟩ ]

/-- The canonical indicator id list `indicatorTypes` (identical in the
edge function's rule branch and its backfill loop). -/
def indicatorTypes : List String :=
  ["impersonation", "urgency", "emotional", "authority", "otp_request", "money_request", "voice_pattern"]

/-! ## Risk levels and the edge function's rule-based branch -/

/-- `riskLevel: 'low' | 'medium' | 'high'`. -/
inductive RiskLevel where
  | low
  | medium
  | high
deriving DecidableEq

/-- Edge-function `ScamIndicator` (interface of `index.ts`). -/
structure EdgeIndicator where
  id : String
  type : String
  detected : Bool
  confidence : Rat
  evidence : Option String := none
deriving DecidableEq

/-- Edge-function `AnalysisResult` (interface of `index.ts`); the
optional `transcript` field is never set on the rule-based branch. -/
structure EdgeAnalysisResult where
  riskLevel : RiskLevel
  riskScore : Int
  indicators : List EdgeIndicator
  guidance : List String
deriving DecidableEq

/-- The indicator built for id `ty` by
`indicatorTypes.map((type) => { const pattern = patterns.find(...); ... })`. -/
def edgeIndicatorFor (text : List Char) (ty : String) : EdgeIndicator :=
  match edgePatterns.find? (fun p => p.id == ty) with
  | some p =>
      let d := ruleMatches p text
      { id := ty, type := ty, detected := d, confidence := if d then (85 / 100 : Rat) else 0 }
  | none => { id := ty, type := ty, detected := false, confidence := 0 }

/-- The weight the same `map` adds to `riskScore` for id `ty`. -/
def edgeWeightContrib (text : List Char) (ty : String) : Int :=
  match edgePatterns.find? (fun p => p.id == ty) with
  | some p => if ruleMatches p text then p.weight else 0
  | none => 0

/-- The accumulated `riskScore` of the edge rule-based branch before
`Math.min(100, riskScore)`. -/
def edgeRawScore (text : List Char) : Int :=
  (indicatorTypes.map (edgeWeightContrib text)).sum

/-- The edge function's rule-based analysis (the `!LOVABLE_API_KEY`
branch of `serve`): normalize, score against `edgePatterns`, clamp at
100, band, floor-correct high scores to 75, attach guidance. -/
def serveRuleBasedAnalysis (transcript : List Char) : EdgeAnalysisResult :=
  let text := normText transcript
  let score := min 100 (edgeRawScore text)
  let riskLevel : RiskLevel :=
    if 50 ≤ score then .high else if 25 ≤ score then .medium else .low
  { riskLevel := riskLevel
    riskScore := if riskLevel = RiskLevel.high then max score 75 else score
    indicators := indicatorTypes.map (edgeIndicatorFor text)
    guidance :=
      if riskLevel = RiskLevel.high then
        ["HIGH RISK - Do not share OTP. End call immediately."]
      else if riskLevel = RiskLevel.medium then
        ["Be cautious. Verify caller identity."]
      else
        ["Call appears safe."] }

/-! ## The edge function's input validation (`POST /analyze` front door) -/

/-- Outcome of the edge endpoint on the rule-based configuration. -/
inductive ServeOutcome where
  | reject (status : Nat) (error : String)
  | analysis (r : EdgeAnalysisResult)
deriving DecidableEq

/-- The `serve` handler up to and including the rule-based branch:
`!transcript || transcript.trim().length === 0` yields
`400 {error: 'No transcript provided'}` (a missing field is `undefined`,
hence falsy; the empty string is falsy and also has empty trim, so the
two JS tests collapse to the trim test on present strings). -/
def serveRuleBased (transcript : Option String) : ServeOutcome :=
  match transcript with
  | none => .reject 400 "No transcript provided"
  | some t =>
      if (trimCL t.data).length = 0 then .reject 400 "No transcript provided"
      else .analysis (serveRuleBasedAnalysis t.data)

/-! ## Client hook: `scamPatterns` metadata and localized guidance -/

/-- The static indicator metadata `scamPatterns` of the client hook
(`Omit<ScamIndicator, 'detected' | 'confidence'>[]`). -/
structure ScamPatternMeta where
  id : String
  type : String
  label : String
  description : String
  severity : String
deriving DecidableEq

/-- The client hook's `scamPatterns` constant. -/
def scamPatterns : List ScamPatternMeta :=
  [ ⟨"impersonation", "impersonation", "Caller Impersonation",
      "Caller claims to be from bank, government, or trusted organization", "high"⟩,
    ⟨"urgency", "urgency", "Urgency Pressure",
      "Creating false urgency - \"Act now or face consequences\"", "high"⟩,
    ⟨"emotional", "emotional", "Emotional Manipulation",
      "Using fear, excitement, or sympathy to manipulate", "medium"⟩,
    ⟨"authority", "authority", "Authority Pressure",
      "Claiming legal authority or threatening arrest", "high"⟩,
    ⟨"otp_request", "otp_request", "OTP Request",
      "Asking for OTP, PIN, or password", "high"⟩,
    ⟨"money_request", "money_request", "Money Request",
      "Requesting money transfer or gift cards", "high"⟩,
    ⟨"voice_pattern", "voice_pattern", "Suspicious Voice Pattern",
      "Unusual stress, pitch changes, or scripted speech", "medium"⟩ ]

/-- `scamPatterns.find((p) => p.id === id)!` — total because every id the
hook looks up is present in `scamPatterns`; the default is never hit on
this table. -/
def metaFor (id : String) : ScamPatternMeta :=
  (scamPatterns.find? (fun p => p.id == id)).getD ⟨id, id, "", "", ""⟩

/-- The English guidance table of `getLocalizedGuidance`. -/
def guidanceEn : RiskLevel → List String
  | .low =>
      ["✓ Call appears safe",
       "✓ No suspicious patterns detected",
       "✓ Continue with normal caution"]
  | .medium =>
      ["⚠️ Be careful with this call",
       "⚠️ Do not share personal information yet",
       "⚠️ Verify the caller's identity independently",
       "⚠️ If unsure, hang up and call back using official numbers"]
  | .high =>
      ["🚫 HIGH RISK - This could be a scam!",
       "🚫 DO NOT share any OTP or passwords",
       "🚫 DO NOT transfer any money",
       "🚫 End this call immediately",
       "🚫 Block this number",
       "📞 Contact your family or bank directly"]

/-- The Hindi guidance table of `getLocalizedGuidance`. -/
def guidanceHi : RiskLevel → List String
  | .low =>
      ["✓ कॉल सुरक्षित लगती है",
       "✓ कोई संदिग्ध पैटर्न नहीं मिला",
       "✓ सामान्य सावधानी के साथ जारी रखें"]
  | .medium =>
      ["⚠️ इस कॉल में सावधान रहें",
       "⚠️ अभी व्यक्तिगत जानकारी साझा न करें",
       "⚠️ कॉलर की पहचान स्वतंत्र रूप से सत्यापित करें",
       "⚠️ अगर संदेह हो, फोन काटें और आधिकारिक नंबर से कॉल करें"]
  | .high =>
      ["🚫 उच्च जोखिम - यह धोखाधड़ी हो सकती है!",
       "🚫 कोई भी OTP या पासवर्ड साझा न करें",
       "🚫 कोई पैसा ट्रांसफर न करें",
       "🚫 इस कॉल को तुरंत समाप्त करें",
       "🚫 इस नंबर को ब्लॉक करें",
       "📞 अपने परिवार या बैंक से सीधे संपर्क करें"]

/-- The Tamil guidance table of `getLocalizedGuidance`. -/
def guidanceTa : RiskLevel → List String
  | .low =>
      ["✓ அழைப்பு பாதுகாப்பானதாக தெரிகிறது",
       "✓ சந்தேகமான முறைகள் இல்லை",
       "✓ சாதாரண எச்சரிக்கையுடன் தொடரவும்"]
  | .medium =>
      ["⚠️ இந்த அழைப்பில் கவனமாக இருங்கள்",
       "⚠️ இன்னும் தனிப்பட்ட தகவல்களைப் பகிர வேண்டாம்",
       "⚠️ அழைப்பாளரின் அடையாளத்தை சுயாதீனமாக சரிபார்க்கவும்"]
  | .high =>
      ["🚫 அதிக ஆபத்து - இது மோசடியாக இருக்கலாம்!",
       "🚫 எந்த OTP அல்லது கடவுச்சொற்களையும் பகிர வேண்டாம்",
       "🚫 பணம் மாற்ற வேண்டாம்",
       "🚫 இந்த அழைப்பை உடனடியாக முடிக்கவும்"]

/-- `getLocalizedGuidance(riskLevel, lang)`: per-language record lookup,
falling back to the English table for unknown languages (every table
entry is a non-empty array, so the JS `||` fallback fires only on a
missing language key). -/
def getLocalizedGuidance (riskLevel : RiskLevel) (lang : String) : List String :=
  if lang = "en" then guidanceEn riskLevel
  else if lang = "hi" then guidanceHi riskLevel
  else if lang = "ta" then guidanceTa riskLevel
  else guidanceEn riskLevel

/-! ## Client hook: `ruleBasedScamAnalysis` -/

/-- Client-side `ScamIndicator` (spread of the `scamPatterns` metadata
plus `detected` and `confidence`). -/
structure ClientIndicator where
  id : String
  type : String
  label : String
  description : String
  severity : String
  detected : Bool
  confidence : Rat
deriving DecidableEq

/-- Client-side `AnalysisResult` (the `timestamp` field of the hook is
wall-clock time and is outside this model). -/
structure ClientAnalysisResult where
  riskLevel : RiskLevel
  riskScore : Int
  indicators : List ClientIndicator
  guidance : List String
deriving DecidableEq

/-- Spread of a metadata row into an indicator. -/
def indicatorOfMeta (m : ScamPatternMeta) (d : Bool) (c : Rat) : ClientIndicator :=
  ⟨m.id, m.type, m.label, m.description, m.severity, d, c⟩

/-- The indicator list built by `ruleBasedScamAnalysis`: one push per
pattern row (in table order), then the always-undetected
`voice_pattern` placeholder. -/
def clientIndicatorsFor (text : List Char) : List ClientIndicator :=
  (clientPatterns.map (fun p =>
    let found := ruleMatches p text
    indicatorOfMeta (metaFor p.id) found (if found then (85 / 100 : Rat) else 0)))
  ++ [indicatorOfMeta (metaFor "voice_pattern") false 0]

/-- `ruleBasedScamAnalysis(transcript, language)` of the client hook:
normalize, score against `clientPatterns`, clamp at 100, band,
floor-correct high scores to 75, attach localized guidance. -/
def ruleBasedScamAnalysis (transcript : List Char) (language : String) : ClientAnalysisResult :=
  let text := normText transcript
  let score := min 100 (rawScoreOf clientPatterns text)
  let riskLevel : RiskLevel :=
    if 50 ≤ score then .high else if 25 ≤ score then .medium else .low
  { riskLevel := riskLevel
    riskScore := if riskLevel = RiskLevel.high then max score 75 else score
    indicators := clientIndicatorsFor text
    guidance := getLocalizedGuidance riskLevel language }

/-- Ids of the indicators a result marks as detected. -/
def detectedIdsClient (r : ClientAnalysisResult) : List String :=
  (r.indicators.filter (fun i => i.detected)).map (fun i => i.id)

/-- Ids of the indicators an edge result marks as detected. -/
def detectedIdsEdge (r : EdgeAnalysisResult) : List String :=
  (r.indicators.filter (fun i => i.detected)).map (fun i => i.id)

/-! ## AI path: parsed JSON values and the backfill / fallback logic

`JSON.parse` itself is an external library call; the edge function's
behavior after the parse attempt is a function of the parse outcome,
modelled as `Option JsValue` (`none` = the parse threw). -/

/-- A parsed JSON value (what `JSON.parse` can return). -/
inductive JsValue where
  | jnull
  | jbool (b : Bool)
  | jnum (q : Rat)
  | jstr (s : String)
  | jarr (elems : List JsValue)
  | jobj (fields : List (String × JsValue))

/-- JS property read on a parsed object (first binding wins; parsed
objects carry no duplicate keys). -/
def jlookup : List (String × JsValue) → String → Option JsValue
  | [], _ => none
  | (k, v) :: rest, key => if k = key then some v else jlookup rest key

/-- In-place update of one property of a parsed object (the mutation
`analysis.indicators.push(...)` performs on the held object). -/
def setField (fs : List (String × JsValue)) (key : String) (v : JsValue) :
    List (String × JsValue) :=
  fs.map (fun kv => if kv.1 = key then (kv.1, v) else kv)

/-- The JS read `i.id` inside `analysis.indicators.map(i => i.id)`:
reading a property of `null` throws a `TypeError`; reading a custom
property of any other non-object yields `undefined` (here `none`). -/
def idOf : JsValue → Except String (Option JsValue)
  | .jnull => .error "TypeError"
  | .jobj fs => .ok (jlookup fs "id")
  | _ => .ok none

/-- `analysis.indicators.map(i => i.id)` over the parsed array. -/
def collectIds : List JsValue → Except String (List (Option JsValue))
  | [] => .ok []
  | v :: rest => do
      let i ← idOf v
      let is ← collectIds rest
      .ok (i :: is)

/-- `existingIds.has(type)` for a canonical (string) id: a JS `Set`
membership test against the collected id values. -/
def idMatches (i : Option JsValue) (ty : String) : Bool :=
  match i with
  | some (.jstr s) => s == ty
  | _ => false

/-- The object pushed for a missing indicator type. -/
def mkBackfillIndicator (ty : String) : JsValue :=
  .jobj [("id", .jstr ty), ("type", .jstr ty),
         ("detected", .jbool false), ("confidence", .jnum 0)]

/-- The backfill loop of the edge function: read
`analysis.indicators`, collect ids, push one canonical entry per
missing type. A decoded value without an array `indicators` property
makes the JS code throw a `TypeError` (caught only by the outer
`catch`, which responds 500). -/
def backfillIndicators (analysis : JsValue) : Except String JsValue :=
  match analysis with
  | .jobj fs =>
      match jlookup fs "indicators" with
      | some (.jarr xs) =>
          match collectIds xs with
          | .error e => .error e
          | .ok ids =>
              .ok (.jobj (setField fs "indicators" (.jarr (xs ++
                (indicatorTypes.filter
                  (fun ty => !(ids.any (fun i => idMatches i ty)))).map mkBackfillIndicator))))
      | _ => .error "TypeError"
  | _ => .error "TypeError"

/-- The safe-defaults object assigned when `JSON.parse` throws. -/
def neutralFallback : JsValue :=
  .jobj [("riskLevel", .jstr "medium"), ("riskScore", .jnum 50),
         ("indicators", .jarr []),
         ("guidance", .jarr [.jstr "Unable to fully analyze. Please be cautious."])]

/-- HTTP outcome of the AI branch after the parse attempt. -/
inductive HttpOutcome where
  | success (body : JsValue)
  | failure (status : Nat) (error : String)

/-- The edge function's AI branch from the parse attempt onwards:
a thrown parse is replaced by `neutralFallback`; the (possibly
defaulted) analysis then runs through the indicator backfill; a
`TypeError` escaping the backfill reaches the outer catch-all and
becomes a 500 response, otherwise the object is returned with 200. -/
def handleParsedAI (parsed : Option JsValue) : HttpOutcome :=
  let analysis := match parsed with
    | some v => v
    | none => neutralFallback
  match backfillIndicators analysis with
  | .ok v => .success v
  | .error e => .failure 500 e

/-- HTTP status of an outcome. -/
def statusOf : HttpOutcome → Nat
  | .success _ => 200
  | .failure s _ => s

/-- A named property of a successful response body. -/
def bodyField : HttpOutcome → String → Option JsValue
  | .success (.jobj fs), k => jlookup fs k
  | _, _ => none

/-- A numeric property of a successful response body. -/
def numField (o : HttpOutcome) (k : String) : Option Rat :=
  match bodyField o k with
  | some (.jnum q) => some q
  | _ => none

/-- A string property of a successful response body. -/
def strField (o : HttpOutcome) (k : String) : Option String :=
  match bodyField o k with
  | some (.jstr s) => some s
  | _ => none

/-- The `indicators` array of a successful response body. -/
def indicatorsOf (o : HttpOutcome) : Option (List JsValue) :=
  match bodyField o "indicators" with
  | some (.jarr xs) => some xs
  | _ => none

/-- Number of entries of the response's `indicators` array. -/
def indicatorCount (o : HttpOutcome) : Option Nat :=
  (indicatorsOf o).map List.length

/-- The id of one indicator entry, when it is a string. -/
def jsIdString (v : JsValue) : Option String :=
  match v with
  | .jobj fs =>
      match jlookup fs "id" with
      | some (.jstr s) => some s
      | _ => none
  | _ => none

/-- How many entries of the response's `indicators` array carry the
given string id. -/
def countId (o : HttpOutcome) (ty : String) : Option Nat :=
  (indicatorsOf o).map (fun xs => (xs.filter (fun v => jsIdString v == some ty)).length)

/-- The `indicators` array of a decoded value, when the value is an
object with an array at that property (the only shape the backfill
accepts without throwing). -/
def indicatorsArrayOf (v : JsValue) : Option (List JsValue) :=
  match v with
  | .jobj fs =>
      match jlookup fs "indicators" with
      | some (.jarr xs) => some xs
      | _ => none
  | _ => none

/-! ## The client scheduler (`useScamAnalysis`)

The hook's dispatch path (`analyzeTranscript`) is synchronous
rule-based analysis, so each dispatch completes inside the event-loop
callback that starts it; the scheduler is therefore modelled as an
atomic step function over the session state, driven by the three kinds
of events that can touch it: an interval/warm-up tick, a transcript
update from the capture collaborator, and a debounce-timer expiry. -/

/-- The mutable session state held by the hook's refs. -/
structure SchedState where
  transcriptR : List Char
  lastAnalyzedLength : Nat
  published : Option ClientAnalysisResult
  debounceArmed : Bool
deriving DecidableEq

/-- An event-loop callback touching the session state. -/
inductive SchedEvent where
  | intervalTick
  | update (newTranscript : List Char)
  | debounceFire
deriving DecidableEq

/-- `setAnalysis` baseline installed by `startAnalysis`: low risk,
score 0, all seven indicators undetected, localized low-risk guidance. -/
def baselineAnalysis (lang : String) : ClientAnalysisResult :=
  { riskLevel := .low
    riskScore := 0
    indicators := scamPatterns.map (fun p => indicatorOfMeta p false 0)
    guidance := getLocalizedGuidance .low lang }

/-- Session state right after `startAnalysis(initialTranscript)`. -/
def initialState (initialTranscript : List Char) (lang : String) : SchedState :=
  { transcriptR := initialTranscript
    lastAnalyzedLength := 0
    published := some (baselineAnalysis lang)
    debounceArmed := false }

/-- One event-loop callback:

* `intervalTick` is `runIntervalCheck` (the warm-up timeout and the
  3-second interval both run it): dispatch only when the transcript
  has at least `ANALYZE_THRESHOLD = 15` characters *and* is strictly
  longer than the last analyzed length;
* `update` is `updateTranscript`: store the new transcript and arm
  (or reset) the 1-second debounce timer when the trimmed length is at
  least 10;
* `debounceFire` is the debounce callback: dispatch when the
  transcript is strictly longer than the last analyzed length — with
  no 15-character minimum on this path. -/
def stepSched (lang : String) (s : SchedState) : SchedEvent → SchedState
  | .intervalTick =>
      if 15 ≤ s.transcriptR.length ∧ s.lastAnalyzedLength < s.transcriptR.length then
        { s with lastAnalyzedLength := s.transcriptR.length
                 published := some (ruleBasedScamAnalysis s.transcriptR lang) }
      else s
  | .update newT =>
      if 10 ≤ (trimCL newT).length then
        { s with transcriptR := newT, debounceArmed := true }
      else
        { s with transcriptR := newT }
  | .debounceFire =>
      if s.debounceArmed then
        if s.lastAnalyzedLength < s.transcriptR.length then
          { s with debounceArmed := false
                   lastAnalyzedLength := s.transcriptR.length
                   published := some (ruleBasedScamAnalysis s.transcriptR lang) }
        else { s with debounceArmed := false }
      else s

/-- The transcript snapshot an event dispatches on, if it dispatches. -/
def dispatchSnapshot (s : SchedState) : SchedEvent → Option (List Char)
  | .intervalTick =>
      if 15 ≤ s.transcriptR.length ∧ s.lastAnalyzedLength < s.transcriptR.length then
        some s.transcriptR
      else none
  | .update _ => none
  | .debounceFire =>
      if s.debounceArmed ∧ s.lastAnalyzedLength < s.transcriptR.length then
        some s.transcriptR
      else none

/-- Run a sequence of event-loop callbacks. -/
def runTrace (lang : String) (s : SchedState) : List SchedEvent → SchedState
  | [] => s
  | e :: es => runTrace lang (stepSched lang s e) es

/-- Snapshot of the most recently started dispatch of a trace. -/
def lastDispatch (lang : String) (s : SchedState) : List SchedEvent → Option (List Char)
  | [] => none
  | e :: es =>
      match lastDispatch lang (stepSched lang s e) es with
      | some snap => some snap
      | none => dispatchSnapshot s e

/-! ## Lemmas about the string primitives -/

lemma startsWithCL_append (n h s : List Char) (hn : startsWithCL n h = true) :
    startsWithCL n (h ++ s) = true := by
  induction n generalizing h with
  | nil => rfl
  | cons a as ih =>
    cases h with
    | nil => simp [startsWithCL] at hn
    | cons b bs =>
      simp only [startsWithCL, Bool.and_eq_true] at hn
      simp only [List.cons_append, startsWithCL, Bool.and_eq_true]
      exact ⟨hn.1, ih bs hn.2⟩

lemma containsSub_nil_left (h : List Char) : containsSub [] h = true := by
  induction h with
  | nil => rfl
  | cons c r ih => simp [containsSub, startsWithCL]

lemma containsSub_append_right (n h s : List Char) (hc : containsSub n h = true) :
    containsSub n (h ++ s) = true := by
  induction h with
  | nil =>
    have hn : n = [] := by
      cases n with
      | nil => rfl
      | cons a as => simp [containsSub, List.isEmpty] at hc
    subst hn
    exact containsSub_nil_left s
  | cons c r ih =>
    simp only [containsSub, Bool.or_eq_true] at hc
    simp only [List.cons_append, containsSub, Bool.or_eq_true]
    rcases hc with h1 | h2
    · exact Or.inl (by simpa using startsWithCL_append n (c :: r) s (by simpa using h1))
    · exact Or.inr (ih h2)

lemma dropWhile_all_nil (x : List Char) (hx : x.all isWS = true) :
    x.dropWhile isWS = [] := by
  induction x with
  | nil => rfl
  | cons c r ih =>
    simp only [List.all_cons, Bool.and_eq_true] at hx
    simp [List.dropWhile_cons, hx.1, ih hx.2]

lemma dropWhile_append_of_all (x y : List Char) (hx : x.all isWS = true) :
    (x ++ y).dropWhile isWS = y.dropWhile isWS := by
  induction x with
  | nil => rfl
  | cons c r ih =>
    simp only [List.all_cons, Bool.and_eq_true] at hx
    simp [List.dropWhile_cons, hx.1, ih hx.2]

lemma dropWhile_append_of_not_all (x y : List Char) (hx : x.all isWS = false) :
    (x ++ y).dropWhile isWS = x.dropWhile isWS ++ y := by
  induction x with
  | nil => simp [List.all_nil] at hx
  | cons c r ih =>
    by_cases hc : isWS c
    · have hr : r.all isWS = false := by
        simp only [List.all_cons, hc, Bool.true_and] at hx
        exact hx
      simp [List.dropWhile_cons, hc, ih hr]
    · simp [List.dropWhile_cons, hc]

lemma takeWhile_append_dropWhile_ws (l : List Char) :
    l.takeWhile isWS ++ l.dropWhile isWS = l := by
  induction l with
  | nil => rfl
  | cons c r ih =>
    by_cases hc : isWS c
    · simp [List.takeWhile_cons, List.dropWhile_cons, hc, ih]
    · simp [List.takeWhile_cons, List.dropWhile_cons, hc]

lemma all_reverse_ws (l : List Char) : l.reverse.all isWS = l.all isWS := by
  rcases h : l.all isWS with _ | _
  · rcases hr : l.reverse.all isWS with _ | _
    · rfl
    · exfalso
      rw [List.all_eq_true] at hr
      have : l.all isWS = true := by
        rw [List.all_eq_true]
        intro a ha
        exact hr a (List.mem_reverse.mpr ha)
      rw [this] at h
      cases h
  · rw [List.all_eq_true] at h ⊢
    intro a ha
    exact h a (List.mem_reverse.mp ha)

/-- Appending text on the right preserves every substring match of the
trimmed text: `trimCL x` stays a factor of `trimCL (x ++ y)`. -/
lemma containsSub_trim_append (kw x y : List Char)
    (h : containsSub kw (trimCL x) = true) :
    containsSub kw (trimCL (x ++ y)) = true := by
  by_cases hx : x.all isWS = true
  · have h1 : x.dropWhile isWS = [] := dropWhile_all_nil x hx
    have h2 : trimCL x = [] := by simp [trimCL, h1]
    rw [h2] at h
    have hkw : kw = [] := by
      cases kw with
      | nil => rfl
      | cons a as => simp [containsSub, List.isEmpty] at h
    subst hkw
    exact containsSub_nil_left _
  · have hx' : x.all isWS = false := by
      cases hv : x.all isWS
      · rfl
      · exact absurd hv hx
    have h1 : (x ++ y).dropWhile isWS = x.dropWhile isWS ++ y :=
      dropWhile_append_of_not_all x y hx'
    by_cases hy : y.all isWS = true
    · have hyr : y.reverse.all isWS = true := by rw [all_reverse_ws]; exact hy
      have h2 : trimCL (x ++ y) = trimCL x := by
        unfold trimCL
        rw [h1, List.reverse_append, dropWhile_append_of_all _ _ hyr]
      rw [h2]
      exact h
    · have hyr : y.reverse.all isWS = false := by
        rw [all_reverse_ws]
        cases hv : y.all isWS
        · rfl
        · exact absurd hv hy
      have h2 : trimCL (x ++ y)
          = x.dropWhile isWS ++ (y.reverse.dropWhile isWS).reverse := by
        unfold trimCL
        rw [h1, List.reverse_append, dropWhile_append_of_not_all _ _ hyr,
          List.reverse_append, List.reverse_reverse]
      have hdecomp : x.dropWhile isWS
          = trimCL x ++ ((x.dropWhile isWS).reverse.takeWhile isWS).reverse := by
        unfold trimCL
        conv_lhs => rw [← List.reverse_reverse (x.dropWhile isWS)]
        conv_lhs => rw [← takeWhile_append_dropWhile_ws ((x.dropWhile isWS).reverse)]
        rw [List.reverse_append]
      rw [h2, hdecomp, List.append_assoc]
      exact containsSub_append_right _ _ _ h


/-- Keyword matches against the normalized transcript survive appends. -/
lemma containsSub_norm_append (kw t s : List Char)
    (h : containsSub kw (normText t) = true) :
    containsSub kw (normText (t ++ s)) = true := by
  unfold normText at *
  unfold lowerCL at *
  rw [List.map_append]
  exact containsSub_trim_append kw _ _ h

/-- A pattern row that fires on a transcript keeps firing after any
append. -/
lemma ruleMatches_norm_append (p : PatternRule) (t s : List Char)
    (h : ruleMatches p (normText t) = true) :
    ruleMatches p (normText (t ++ s)) = true := by
  unfold ruleMatches at *
  rw [List.any_eq_true] at h ⊢
  obtain ⟨kw, hkw, hm⟩ := h
  exact ⟨kw, hkw, containsSub_norm_append kw.data t s hm⟩

/-- The raw (pre-clamp) score of any nonnegative-weight table is
monotone under transcript extension. -/
lemma rawScoreOf_norm_append (pats : List PatternRule)
    (hw : ∀ p ∈ pats, 0 ≤ p.weight) (t s : List Char) :
    rawScoreOf pats (normText t) ≤ rawScoreOf pats (normText (t ++ s)) := by
  unfold rawScoreOf
  refine List.sum_le_sum ?_
  intro p hp
  by_cases hm : ruleMatches p (normText t) = true
  · rw [if_pos hm, if_pos (ruleMatches_norm_append p t s hm)]
  · rw [if_neg hm]
    by_cases hm' : ruleMatches p (normText (t ++ s)) = true
    · rw [if_pos hm']
      exact hw p hp
    · rw [if_neg hm']

/-- The raw score of a nonnegative-weight table is nonnegative. -/
lemma rawScoreOf_nonneg (pats : List PatternRule)
    (hw : ∀ p ∈ pats, 0 ≤ p.weight) (text : List Char) :
    0 ≤ rawScoreOf pats text := by
  unfold rawScoreOf
  refine List.sum_nonneg ?_
  intro q hq
  rw [List.mem_map] at hq
  obtain ⟨p, hp, rfl⟩ := hq
  by_cases hm : ruleMatches p text = true
  · rw [if_pos hm]
    exact hw p hp
  · rw [if_neg hm]

/-- Every row of the edge table has a nonnegative weight. -/
lemma edgePatterns_weight_nonneg : ∀ q ∈ edgePatterns, 0 ≤ q.weight := by decide

/-- Every row of the client table has a nonnegative weight. -/
lemma clientPatterns_weight_nonneg : ∀ q ∈ clientPatterns, 0 ≤ q.weight := by decide

/-- Each per-type contribution of the edge branch is nonnegative. -/
lemma edgeWeightContrib_nonneg (text : List Char) (ty : String) :
    0 ≤ edgeWeightContrib text ty := by
  unfold edgeWeightContrib
  cases hf : edgePatterns.find? (fun p => p.id == ty) with
  | none => exact le_refl 0
  | some p =>
    have hw : 0 ≤ p.weight :=
      edgePatterns_weight_nonneg p (List.mem_of_find?_eq_some hf)
    show 0 ≤ if ruleMatches p text = true then p.weight else 0
    by_cases hm : ruleMatches p text = true
    · rw [if_pos hm]
      exact hw
    · rw [if_neg hm]

/-- The edge branch's accumulated score is nonnegative. -/
lemma edgeRawScore_nonneg (text : List Char) : 0 ≤ edgeRawScore text := by
  unfold edgeRawScore
  refine List.sum_nonneg ?_
  intro q hq
  rw [List.mem_map] at hq
  obtain ⟨ty, _, rfl⟩ := hq
  exact edgeWeightContrib_nonneg text ty

/-- Each per-type contribution of the edge branch is monotone under
transcript extension. -/
lemma edgeWeightContrib_norm_append (ty : String) (t s : List Char) :
    edgeWeightContrib (normText t) ty ≤ edgeWeightContrib (normText (t ++ s)) ty := by
  unfold edgeWeightContrib
  cases hf : edgePatterns.find? (fun p => p.id == ty) with
  | none => exact le_refl 0
  | some p =>
    have hw : 0 ≤ p.weight :=
      edgePatterns_weight_nonneg p (List.mem_of_find?_eq_some hf)
    show (if ruleMatches p (normText t) = true then p.weight else 0)
        ≤ if ruleMatches p (normText (t ++ s)) = true then p.weight else 0
    by_cases hm : ruleMatches p (normText t) = true
    · rw [if_pos hm, if_pos (ruleMatches_norm_append p t s hm)]
    · rw [if_neg hm]
      by_cases hm' : ruleMatches p (normText (t ++ s)) = true
      · rw [if_pos hm']
        exact hw
      · rw [if_neg hm']

/-- The edge branch's accumulated score is monotone under transcript
extension. -/
lemma edgeRawScore_norm_append (t s : List Char) :
    edgeRawScore (normText t) ≤ edgeRawScore (normText (t ++ s)) := by
  unfold edgeRawScore
  refine List.sum_le_sum ?_
  intro ty _
  exact edgeWeightContrib_norm_append ty t s

/-! ## Lemmas about the scheduler -/

/-- One step publishes exactly the analysis of the snapshot it
dispatches on, and leaves the published result alone otherwise. -/
lemma published_stepSched (lang : String) (s : SchedState) (e : SchedEvent) :
    (stepSched lang s e).published =
      match dispatchSnapshot s e with
      | some snap => some (ruleBasedScamAnalysis snap lang)
      | none => s.published := by
  cases e with
  | intervalTick =>
    by_cases h : 15 ≤ s.transcriptR.length ∧ s.lastAnalyzedLength < s.transcriptR.length
    · simp [stepSched, dispatchSnapshot, h]
    · simp [stepSched, dispatchSnapshot, h]
  | update newT =>
    by_cases h : 10 ≤ (trimCL newT).length
    · simp [stepSched, dispatchSnapshot, h]
    · simp [stepSched, dispatchSnapshot, h]
  | debounceFire =>
    by_cases h1 : s.debounceArmed = true
    · by_cases h2 : s.lastAnalyzedLength < s.transcriptR.length
      · simp [stepSched, dispatchSnapshot, h1, h2]
      · simp [stepSched, dispatchSnapshot, h1, h2]
    · simp [stepSched, dispatchSnapshot, h1]

/-! ## Lemmas about the AI-path JSON handling -/

lemma setField_cons (a : String) (b : JsValue) (rest : List (String × JsValue))
    (key : String) (v : JsValue) :
    setField ((a, b) :: rest) key v
      = (if a = key then (a, v) else (a, b)) :: setField rest key v := by
  simp [setField]

lemma jlookup_setField_ne (fs : List (String × JsValue)) (key k : String) (v : JsValue)
    (h : k ≠ key) : jlookup (setField fs key v) k = jlookup fs k := by
  induction fs with
  | nil => rfl
  | cons kv rest ih =>
    obtain ⟨a, b⟩ := kv
    rw [setField_cons]
    by_cases hakey : a = key
    · rw [if_pos hakey]
      have hak : a ≠ k := fun hh => h (hh ▸ hakey)
      simp only [jlookup, if_neg hak]
      exact ih
    · rw [if_neg hakey]
      by_cases hak : a = k
      · simp only [jlookup, if_pos hak]
      · simp only [jlookup, if_neg hak]
        exact ih

lemma jlookup_setField_self (fs : List (String × JsValue)) (key : String)
    (v w : JsValue) (h : jlookup fs key = some w) :
    jlookup (setField fs key v) key = some v := by
  induction fs with
  | nil => simp [jlookup] at h
  | cons kv rest ih =>
    obtain ⟨a, b⟩ := kv
    rw [setField_cons]
    by_cases ha : a = key
    · rw [if_pos ha]
      simp only [jlookup, if_pos ha]
    · rw [if_neg ha]
      simp only [jlookup, if_neg ha] at h
      simp only [jlookup, if_neg ha]
      exact ih h

lemma collectIds_mem (xs : List JsValue) (ids : List (Option JsValue))
    (i : Option JsValue) (hc : collectIds xs = .ok ids) (hi : i ∈ ids) :
    ∃ v ∈ xs, idOf v = .ok i := by
  induction xs generalizing ids with
  | nil =>
    unfold collectIds at hc
    cases hc
    simp at hi
  | cons v rest ih =>
    unfold collectIds at hc
    cases hv : idOf v with
    | error e =>
      rw [hv] at hc
      exact absurd hc (by simp [Bind.bind, Except.bind])
    | ok j =>
      rw [hv] at hc
      cases hr : collectIds rest with
      | error e =>
        rw [hr] at hc
        exact absurd hc (by simp [Bind.bind, Except.bind])
      | ok js =>
        rw [hr] at hc
        simp only [Bind.bind, Except.bind, Except.ok.injEq] at hc
        subst hc
        rcases List.mem_cons.mp hi with h1 | h2
        · subst h1
          exact ⟨v, List.mem_cons_self v rest, hv⟩
        · obtain ⟨w, hw1, hw2⟩ := ih js hr h2
          exact ⟨w, List.mem_cons_of_mem v hw1, hw2⟩

lemma idOf_ok_jstr (v : JsValue) (ty : String)
    (h : idOf v = .ok (some (.jstr ty))) : jsIdString v = some ty := by
  cases v with
  | jobj fs =>
    unfold idOf at h
    simp only [Except.ok.injEq] at h
    show (match jlookup fs "id" with
      | some (.jstr s) => some s
      | _ => none) = some ty
    rw [h]
  | jnull => exact absurd h (by simp [idOf])
  | jbool b => exact absurd h (by simp [idOf])
  | jnum q => exact absurd h (by simp [idOf])
  | jstr s => exact absurd h (by simp [idOf])
  | jarr xs => exact absurd h (by simp [idOf])

/-- Bounds of the clamp-band-floor pipeline both rule paths share. -/
lemma banded_score_bounds (raw : Int) (h0 : 0 ≤ raw) :
    0 ≤ (if (if 50 ≤ min 100 raw then RiskLevel.high
          else if 25 ≤ min 100 raw then RiskLevel.medium else RiskLevel.low) = RiskLevel.high
        then max (min 100 raw) 75 else min 100 raw)
    ∧ (if (if 50 ≤ min 100 raw then RiskLevel.high
          else if 25 ≤ min 100 raw then RiskLevel.medium else RiskLevel.low) = RiskLevel.high
        then max (min 100 raw) 75 else min 100 raw) ≤ 100 := by
  by_cases h1 : 50 ≤ min 100 raw
  · rw [if_pos h1, if_pos rfl]
    constructor <;> omega
  · rw [if_neg h1]
    by_cases h2 : 25 ≤ min 100 raw
    · rw [if_pos h2, if_neg (show RiskLevel.medium ≠ RiskLevel.high by decide)]
      constructor <;> omega
    · rw [if_neg h2, if_neg (show RiskLevel.low ≠ RiskLevel.high by decide)]
      constructor <;> omega

lemma idMatches_true (i : Option JsValue) (ty : String)
    (h : idMatches i ty = true) : i = some (.jstr ty) := by
  match i with
  | none => exact absurd h (by simp [idMatches])
  | some (.jstr s) =>
    have : s = ty := by
      have hb : (s == ty) = true := h
      exact beq_iff_eq.mp hb
    rw [this]
  | some .jnull => exact absurd h (by simp [idMatches])
  | some (.jbool b) => exact absurd h (by simp [idMatches])
  | some (.jnum q) => exact absurd h (by simp [idMatches])
  | some (.jarr xs) => exact absurd h (by simp [idMatches])
  | some (.jobj fs) => exact absurd h (by simp [idMatches])

/-- Unfolding membership in a filter-by-detected / map-to-id pipeline. -/
lemma mem_filter_map_ids {α : Type} (det : α → Bool) (gid : α → String)
    (ind : List α) (x : String) :
    (x ∈ (ind.filter det).map gid) ↔ ∃ i ∈ ind, det i = true ∧ gid i = x := by
  simp [List.mem_map, List.mem_filter, and_assoc]

lemma edgeIndicatorFor_id (text : List Char) (ty : String) :
    (edgeIndicatorFor text ty).id = ty := by
  unfold edgeIndicatorFor
  cases edgePatterns.find? (fun p => p.id == ty) <;> rfl

lemma edgeIndicatorFor_detected_mono (ty : String) (t s : List Char)
    (h : (edgeIndicatorFor (normText t) ty).detected = true) :
    (edgeIndicatorFor (normText (t ++ s)) ty).detected = true := by
  unfold edgeIndicatorFor at h ⊢
  cases hf : edgePatterns.find? (fun p => p.id == ty) with
  | none =>
    rw [hf] at h
    simp at h
  | some p =>
    rw [hf] at h
    have hm : ruleMatches p (normText t) = true := h
    exact ruleMatches_norm_append p t s hm

/-- Every indicator id the client rule path detects on `t` is still
detected on `t ++ s`. -/
lemma detectedIdsClient_mono (t s : List Char) (lang : String) (x : String)
    (hx : x ∈ detectedIdsClient (ruleBasedScamAnalysis t lang)) :
    x ∈ detectedIdsClient (ruleBasedScamAnalysis (t ++ s) lang) := by
  have hx' : x ∈ ((clientIndicatorsFor (normText t)).filter
      (fun i => i.detected)).map (fun i => i.id) := hx
  have h1 : ∃ i ∈ clientIndicatorsFor (normText t), i.detected = true ∧ i.id = x :=
    (mem_filter_map_ids (fun i => i.detected) (fun i => i.id)
      (clientIndicatorsFor (normText t)) x).mp hx'
  obtain ⟨i, hi, hdet, hid⟩ := h1
  rcases List.mem_append.mp hi with hA | hB
  · obtain ⟨p, hp, rfl⟩ := List.mem_map.mp hA
    have hm : ruleMatches p (normText t) = true := hdet
    have hm' : ruleMatches p (normText (t ++ s)) = true := ruleMatches_norm_append p t s hm
    show x ∈ ((clientIndicatorsFor (normText (t ++ s))).filter
      (fun i => i.detected)).map (fun i => i.id)
    refine (mem_filter_map_ids (fun i => i.detected) (fun i => i.id)
      (clientIndicatorsFor (normText (t ++ s))) x).mpr ?_
    refine ⟨(fun p =>
      let found := ruleMatches p (normText (t ++ s))
      indicatorOfMeta (metaFor p.id) found (if found then (85 / 100 : Rat) else 0)) p,
      List.mem_append_left _ (List.mem_map.mpr ⟨p, hp, rfl⟩), ?_, ?_⟩
    · exact hm'
    · exact hid
  · simp only [List.mem_singleton] at hB
    subst hB
    exact absurd hdet (by simp [indicatorOfMeta])

/-- Every indicator id the edge rule branch detects on `t` is still
detected on `t ++ s`. -/
lemma detectedIdsEdge_mono (t s : List Char) (x : String)
    (hx : x ∈ detectedIdsEdge (serveRuleBasedAnalysis t)) :
    x ∈ detectedIdsEdge (serveRuleBasedAnalysis (t ++ s)) := by
  have hx' : x ∈ ((indicatorTypes.map (edgeIndicatorFor (normText t))).filter
      (fun i => i.detected)).map (fun i => i.id) := hx
  have h1 : ∃ i ∈ indicatorTypes.map (edgeIndicatorFor (normText t)),
      i.detected = true ∧ i.id = x :=
    (mem_filter_map_ids (fun i => i.detected) (fun i => i.id)
      (indicatorTypes.map (edgeIndicatorFor (normText t))) x).mp hx'
  obtain ⟨i, hi, hdet, hid⟩ := h1
  obtain ⟨ty, hty, rfl⟩ := List.mem_map.mp hi
  show x ∈ ((indicatorTypes.map (edgeIndicatorFor (normText (t ++ s)))).filter
    (fun i => i.detected)).map (fun i => i.id)
  refine (mem_filter_map_ids (fun i => i.detected) (fun i => i.id)
    (indicatorTypes.map (edgeIndicatorFor (normText (t ++ s)))) x).mpr ?_
  refine ⟨edgeIndicatorFor (normText (t ++ s)) ty,
    List.mem_map.mpr ⟨ty, hty, rfl⟩, edgeIndicatorFor_detected_mono ty t s hdet, ?_⟩
  rw [edgeIndicatorFor_id] at hid ⊢
  exact hid

/-! ## Claim theorems -/

/-- The spec's band function of §3 invariant 4:
`raw ≥ 50 → high`, `25 ≤ raw < 50 → medium`, else `low`. -/
def specBand (raw : Int) : RiskLevel :=
  if 50 ≤ raw then .high else if 25 ≤ raw ∧ raw < 50 then .medium else .low

/-- C7: for every transcript, the rule-based scorer's riskLevel is the
deterministic band function of the raw (pre-floor-correction) score:
raw ≥ 50 yields high, 25 ≤ raw < 50 yields medium, raw < 25 yields
low — proved for the client scorer `ruleBasedScamAnalysis` and for the
edge function's rule-based branch. -/
theorem riskLevel_is_band_of_raw_score (t : List Char) (lang : String) :
    (ruleBasedScamAnalysis t lang).riskLevel
        = specBand (min 100 (rawScoreOf clientPatterns (normText t)))
    ∧ (serveRuleBasedAnalysis t).riskLevel
        = specBand (min 100 (edgeRawScore (normText t))) := by
  have hband : ∀ v : Int,
      (if 50 ≤ v then RiskLevel.high else if 25 ≤ v then RiskLevel.medium else RiskLevel.low)
        = specBand v := by
    intro v
    unfold specBand
    by_cases h1 : 50 ≤ v
    · rw [if_pos h1, if_pos h1]
    · rw [if_neg h1, if_neg h1]
      by_cases h2 : 25 ≤ v
      · rw [if_pos h2, if_pos (And.intro h2 (by omega))]
      · rw [if_neg h2, if_neg (fun hh => h2 hh.1)]
  constructor
  · exact hband (min 100 (rawScoreOf clientPatterns (normText t)))
  · exact hband (min 100 (edgeRawScore (normText t)))

/-- C8: a request whose transcript field is missing, empty, or
whitespace-only is rejected with status 400 and the body
`{error: "No transcript provided"}`, and no analysis outcome is
produced. -/
theorem empty_transcript_rejected (t : Option String)
    (h : t = none ∨ ∃ s, t = some s ∧ ∀ c ∈ s.data, isWS c = true) :
    serveRuleBased t = ServeOutcome.reject 400 "No transcript provided" := by
  rcases h with rfl | ⟨s, rfl, hws⟩
  · rfl
  · have hall : s.data.all isWS = true := List.all_eq_true.mpr hws
    have h1 : s.data.dropWhile isWS = [] := dropWhile_all_nil _ hall
    have h2 : trimCL s.data = [] := by simp [trimCL, h1]
    show (if (trimCL s.data).length = 0 then ServeOutcome.reject 400 "No transcript provided"
      else ServeOutcome.analysis (serveRuleBasedAnalysis s.data))
      = ServeOutcome.reject 400 "No transcript provided"
    rw [h2]
    rfl

/-- Witness for C8 at the concrete inputs `none`, `some ""` and a
whitespace-only transcript. -/
theorem empty_transcript_rejected_witness :
    serveRuleBased none = ServeOutcome.reject 400 "No transcript provided"
    ∧ serveRuleBased (some "") = ServeOutcome.reject 400 "No transcript provided"
    ∧ serveRuleBased (some "  \t ") = ServeOutcome.reject 400 "No transcript provided" :=
  ⟨empty_transcript_rejected none (Or.inl rfl),
   empty_transcript_rejected (some "") (Or.inr ⟨"", rfl, by decide⟩),
   empty_transcript_rejected (some "  \t ") (Or.inr ⟨"  \t ", rfl, by decide⟩)⟩

/-- C5: the hook's dispatch path is synchronous rule-based analysis, so
each dispatch runs to completion inside the single event-loop callback
that started it — at most one dispatch is ever in flight, and a
trigger-check arriving later is a separate atomic step. Consequently,
over every event trace the published result is exactly the analysis of
the snapshot of the most recently started dispatch (or the unchanged
prior state when no dispatch has started), never a stale earlier
dispatch resolving later. -/
theorem published_result_is_latest_dispatch (lang : String) (s : SchedState)
    (es : List SchedEvent) :
    (runTrace lang s es).published =
      match lastDispatch lang s es with
      | some snap => some (ruleBasedScamAnalysis snap lang)
      | none => s.published := by
  induction es generalizing s with
  | nil => rfl
  | cons e es ih =>
    show (runTrace lang (stepSched lang s e) es).published = _
    rw [ih (stepSched lang s e)]
    show _ = match (match lastDispatch lang (stepSched lang s e) es with
      | some snap => some snap
      | none => dispatchSnapshot s e) with
      | some snap => some (ruleBasedScamAnalysis snap lang)
      | none => s.published
    cases h : lastDispatch lang (stepSched lang s e) es with
    | some snap => rfl
    | none => exact published_stepSched lang s e

/-- C6 (amended): the 15-character minimum gates only the interval-tick
path: an interval tick dispatches exactly when the transcript has at
least 15 characters and is strictly longer than the last analyzed
length, and is a no-op otherwise. The debounce path has no 15-character
minimum: once armed (the update that armed it had trimmed length ≥ 10),
its expiry dispatches whenever the transcript is strictly longer than
the last analyzed length — so a 10-to-14-character transcript can be
analyzed through the debounce path. -/
theorem trigger_check_dispatch_conditions (lang : String) (s : SchedState) :
    (s.transcriptR.length < 15 ∨ s.transcriptR.length ≤ s.lastAnalyzedLength →
      stepSched lang s SchedEvent.intervalTick = s
      ∧ dispatchSnapshot s SchedEvent.intervalTick = none)
    ∧ (15 ≤ s.transcriptR.length → s.lastAnalyzedLength < s.transcriptR.length →
      dispatchSnapshot s SchedEvent.intervalTick = some s.transcriptR)
    ∧ (s.debounceArmed = true → s.lastAnalyzedLength < s.transcriptR.length →
      dispatchSnapshot s SchedEvent.debounceFire = some s.transcriptR) := by
  refine ⟨?_, ?_, ?_⟩
  · intro h
    have hneg : ¬ (15 ≤ s.transcriptR.length ∧ s.lastAnalyzedLength < s.transcriptR.length) := by
      rcases h with h | h <;> omega
    constructor
    · show (if 15 ≤ s.transcriptR.length ∧ s.lastAnalyzedLength < s.transcriptR.length then _
        else s) = s
      rw [if_neg hneg]
    · show (if 15 ≤ s.transcriptR.length ∧ s.lastAnalyzedLength < s.transcriptR.length then
        some s.transcriptR else none) = none
      rw [if_neg hneg]
  · intro h1 h2
    show (if 15 ≤ s.transcriptR.length ∧ s.lastAnalyzedLength < s.transcriptR.length then
      some s.transcriptR else none) = some s.transcriptR
    rw [if_pos (And.intro h1 h2)]
  · intro h1 h2
    show (if s.debounceArmed = true ∧ s.lastAnalyzedLength < s.transcriptR.length then
      some s.transcriptR else none) = some s.transcriptR
    rw [if_pos (And.intro h1 h2)]

/-- Session states exercising the dispatch conditions: a 14-character
transcript, a 16-character transcript, and an armed debounce with a
14-character transcript. -/
def st14 : SchedState :=
  { transcriptR := "abcdefghijklmn".data, lastAnalyzedLength := 0,
    published := none, debounceArmed := false }

def st16 : SchedState :=
  { transcriptR := "abcdefghijklmnop".data, lastAnalyzedLength := 0,
    published := none, debounceArmed := false }

def stDeb : SchedState :=
  { transcriptR := "abcdefghijklmn".data, lastAnalyzedLength := 0,
    published := none, debounceArmed := true }

/-- Witness for C6 (amended): a 14-character transcript makes the
interval tick a no-op, a 16-character one dispatches on the next tick,
and an armed debounce dispatches on the same 14-character transcript. -/
theorem trigger_check_dispatch_conditions_witness :
    stepSched "en" st14 SchedEvent.intervalTick = st14
    ∧ dispatchSnapshot st16 SchedEvent.intervalTick = some st16.transcriptR
    ∧ dispatchSnapshot stDeb SchedEvent.debounceFire = some stDeb.transcriptR :=
  ⟨((trigger_check_dispatch_conditions "en" st14).1 (Or.inl (by decide))).1,
   (trigger_check_dispatch_conditions "en" st16).2.1 (by decide) (by decide),
   (trigger_check_dispatch_conditions "en" stDeb).2.2 (by decide) (by decide)⟩

/-- Counterexample to C6 as stated: starting from a fresh session, a
single `updateTranscript` to a 14-character transcript arms the
debounce timer (trimmed length 14 ≥ 10), and its expiry dispatches an
analysis pass on that transcript even though it is shorter than the
15-character minimum — so "no dispatch on any trigger path below 15
characters" fails on the debounce path. -/
theorem trigger_check_below_minimum_counterexample :
    lastDispatch "en" (initialState [] "en")
        [SchedEvent.update "abcdefghijklmn".data, SchedEvent.debounceFire]
      = some "abcdefghijklmn".data
    ∧ ("abcdefghijklmn".data).length < 15 := by
  constructor
  · decide
  · decide

lemma numField_success_obj (gs : List (String × JsValue)) (k : String) (q : Rat)
    (h : jlookup gs k = some (.jnum q)) :
    numField (HttpOutcome.success (.jobj gs)) k = some q := by
  show (match jlookup gs k with
    | some (.jnum q') => some q'
    | _ => none) = some q
  rw [h]

lemma strField_success_obj (gs : List (String × JsValue)) (k : String) (v : String)
    (h : jlookup gs k = some (.jstr v)) :
    strField (HttpOutcome.success (.jobj gs)) k = some v := by
  show (match jlookup gs k with
    | some (.jstr s) => some s
    | _ => none) = some v
  rw [h]

lemma indicatorsOf_success_obj (gs : List (String × JsValue)) (xs : List JsValue)
    (h : jlookup gs "indicators" = some (.jarr xs)) :
    indicatorsOf (HttpOutcome.success (.jobj gs)) = some xs := by
  show (match jlookup gs "indicators" with
    | some (.jarr ys) => some ys
    | _ => none) = some xs
  rw [h]

/-- Fields of a decoded AI response carrying an out-of-range risk
score. -/
def overRangeFields : List (String × JsValue) :=
  [("riskLevel", .jstr "high"), ("riskScore", .jnum 150),
   ("indicators", .jarr []), ("guidance", .jarr [.jstr "check"])]

/-- C1 (amended): the rule-based branch and the neutral fallback keep
`0 ≤ riskScore ≤ 100`; the AI path applies no clamping and returns the
parsed riskScore unchanged, so there the bound holds only if the
decoded value already satisfies it. -/
theorem riskScore_bounds_by_path :
    (∀ (t : List Char) (lang : String),
        0 ≤ (ruleBasedScamAnalysis t lang).riskScore
        ∧ (ruleBasedScamAnalysis t lang).riskScore ≤ 100)
    ∧ (∀ t : List Char,
        0 ≤ (serveRuleBasedAnalysis t).riskScore
        ∧ (serveRuleBasedAnalysis t).riskScore ≤ 100)
    ∧ numField (handleParsedAI none) "riskScore" = some 50
    ∧ (∀ (fs : List (String × JsValue)) (xs : List JsValue)
        (ids : List (Option JsValue)) (q : Rat),
        jlookup fs "indicators" = some (.jarr xs) →
        collectIds xs = .ok ids →
        jlookup fs "riskScore" = some (.jnum q) →
        numField (handleParsedAI (some (.jobj fs))) "riskScore" = some q) := by
  refine ⟨?_, ?_, rfl, ?_⟩
  · intro t lang
    exact banded_score_bounds (rawScoreOf clientPatterns (normText t))
      (rawScoreOf_nonneg clientPatterns clientPatterns_weight_nonneg (normText t))
  · intro t
    exact banded_score_bounds (edgeRawScore (normText t)) (edgeRawScore_nonneg (normText t))
  · intro fs xs ids q h1 h2 h3
    have hbf : handleParsedAI (some (.jobj fs)) = HttpOutcome.success (.jobj (setField fs
        "indicators" (.jarr (xs ++ (indicatorTypes.filter
          (fun ty => !(ids.any (fun i => idMatches i ty)))).map mkBackfillIndicator)))) := by
      simp only [handleParsedAI, backfillIndicators, h1, h2]
    rw [hbf]
    refine numField_success_obj _ _ q ?_
    rw [jlookup_setField_ne fs "indicators" "riskScore" _ (by decide)]
    exact h3

/-- Witness for C1 (amended): the AI pass-through clause instantiated on
a decoded response whose riskScore is 150. -/
theorem riskScore_bounds_by_path_witness :
    jlookup overRangeFields "indicators" = some (.jarr [])
    ∧ collectIds [] = .ok []
    ∧ jlookup overRangeFields "riskScore" = some (.jnum 150)
    ∧ numField (handleParsedAI (some (.jobj overRangeFields))) "riskScore" = some 150 :=
  ⟨rfl, rfl, rfl, riskScore_bounds_by_path.2.2.2 overRangeFields [] [] 150 rfl rfl rfl⟩

/-- Counterexample to C1 as stated: a decoded AI response with
riskScore 150 is returned by the endpoint with status 200 and
riskScore 150, which violates `0 ≤ riskScore ≤ 100` on the AI path. -/
theorem riskScore_bounds_counterexample :
    numField (handleParsedAI (some (.jobj overRangeFields))) "riskScore" = some 150
    ∧ statusOf (handleParsedAI (some (.jobj overRangeFields))) = 200
    ∧ ¬ ((150 : Rat) ≤ 100) := by
  refine ⟨rfl, rfl, by norm_num⟩

/-- Fields of a decoded AI response with a duplicated indicator id. -/
def dupFields : List (String × JsValue) :=
  [("riskLevel", .jstr "medium"), ("riskScore", .jnum 50),
   ("indicators", .jarr [.jobj [("id", .jstr "urgency")], .jobj [("id", .jstr "urgency")]]),
   ("guidance", .jarr [])]

/-- C2 (amended): both rule-based producers and the neutral fallback
return exactly the seven canonical indicator ids, each once; the AI
path only backfills *missing* canonical ids, so after backfill every
canonical id occurs at least once, but parsed duplicates or extra
entries are kept. -/
theorem indicator_ids_by_path :
    (∀ (t : List Char) (lang : String),
        (ruleBasedScamAnalysis t lang).indicators.map (fun i => i.id)
          = ["impersonation", "otp_request", "urgency", "authority",
             "money_request", "emotional", "voice_pattern"])
    ∧ (∀ t : List Char,
        (serveRuleBasedAnalysis t).indicators.map (fun i => i.id) = indicatorTypes)
    ∧ ((indicatorsOf (handleParsedAI none)).map (fun xs => xs.map jsIdString)
        = some (indicatorTypes.map some))
    ∧ (∀ (fs : List (String × JsValue)) (xs : List JsValue)
        (ids : List (Option JsValue)) (ty : String),
        jlookup fs "indicators" = some (.jarr xs) →
        collectIds xs = .ok ids → ty ∈ indicatorTypes →
        ∃ v ∈ (indicatorsOf (handleParsedAI (some (.jobj fs)))).getD [],
          jsIdString v = some ty) := by
  refine ⟨?_, ?_, rfl, ?_⟩
  · intro t lang
    rfl
  · intro t
    rfl
  · intro fs xs ids ty h1 h2 hty
    have hbf : handleParsedAI (some (.jobj fs)) = HttpOutcome.success (.jobj (setField fs
        "indicators" (.jarr (xs ++ (indicatorTypes.filter
          (fun ty' => !(ids.any (fun i => idMatches i ty')))).map mkBackfillIndicator)))) := by
      simp only [handleParsedAI, backfillIndicators, h1, h2]
    have hio : indicatorsOf (handleParsedAI (some (.jobj fs)))
        = some (xs ++ (indicatorTypes.filter
          (fun ty' => !(ids.any (fun i => idMatches i ty')))).map mkBackfillIndicator) := by
      rw [hbf]
      exact indicatorsOf_success_obj _ _ (jlookup_setField_self fs "indicators" _ _ h1)
    rw [hio]
    simp only [Option.getD_some]
    by_cases hany : ids.any (fun i => idMatches i ty) = true
    · obtain ⟨i, hiId, hmatch⟩ := List.any_eq_true.mp hany
      have hieq : i = some (.jstr ty) := idMatches_true i ty hmatch
      subst hieq
      obtain ⟨v, hv, hidOf⟩ := collectIds_mem xs ids _ h2 hiId
      exact ⟨v, List.mem_append_left _ hv, idOf_ok_jstr v ty hidOf⟩
    · have hfalse : ids.any (fun i => idMatches i ty) = false := by
        cases hv : ids.any (fun i => idMatches i ty) with
        | false => rfl
        | true => exact absurd hv hany
      have hmem : ty ∈ indicatorTypes.filter
          (fun ty' => !(ids.any (fun i => idMatches i ty'))) := by
        rw [List.mem_filter]
        exact ⟨hty, by rw [hfalse]; rfl⟩
      exact ⟨mkBackfillIndicator ty,
        List.mem_append_right _ (List.mem_map.mpr ⟨ty, hmem, rfl⟩), rfl⟩

/-- Witness for C2 (amended): the AI-path coverage clause instantiated
on a decoded response whose indicator array duplicates `urgency`. -/
theorem indicator_ids_by_path_witness :
    jlookup dupFields "indicators"
      = some (.jarr [.jobj [("id", .jstr "urgency")], .jobj [("id", .jstr "urgency")]])
    ∧ "voice_pattern" ∈ indicatorTypes
    ∧ ∃ v ∈ (indicatorsOf (handleParsedAI (some (.jobj dupFields)))).getD [],
        jsIdString v = some "voice_pattern" :=
  ⟨rfl, by decide,
   indicator_ids_by_path.2.2.2 dupFields
     [.jobj [("id", .jstr "urgency")], .jobj [("id", .jstr "urgency")]]
     [some (.jstr "urgency"), some (.jstr "urgency")] "voice_pattern" rfl rfl (by decide)⟩

/-- Counterexample to C2 as stated: a decoded AI response whose
indicator array holds two `urgency` entries is returned with eight
indicator entries, `urgency` occurring twice — not exactly seven
entries with no duplicate ids. -/
theorem indicator_ids_counterexample :
    indicatorCount (handleParsedAI (some (.jobj dupFields))) = some 8
    ∧ countId (handleParsedAI (some (.jobj dupFields))) "urgency" = some 2
    ∧ statusOf (handleParsedAI (some (.jobj dupFields))) = 200 := by
  refine ⟨rfl, rfl, rfl⟩

/-- Fields of a decoded AI response labelled high with a sub-75
score. -/
def noFloorFields : List (String × JsValue) :=
  [("riskLevel", .jstr "high"), ("riskScore", .jnum 60),
   ("indicators", .jarr []), ("guidance", .jarr [])]

/-- C3 (amended): both rule-based producers floor-correct high results
to at least 75, and the neutral fallback is medium; the AI path applies
no floor correction and returns the parsed riskLevel and riskScore
unchanged, so `high ⇒ riskScore ≥ 75` can fail there. -/
theorem high_risk_floor_by_path :
    (∀ (t : List Char) (lang : String),
        (ruleBasedScamAnalysis t lang).riskLevel = RiskLevel.high →
        75 ≤ (ruleBasedScamAnalysis t lang).riskScore)
    ∧ (∀ t : List Char,
        (serveRuleBasedAnalysis t).riskLevel = RiskLevel.high →
        75 ≤ (serveRuleBasedAnalysis t).riskScore)
    ∧ strField (handleParsedAI none) "riskLevel" = some "medium"
    ∧ (∀ (fs : List (String × JsValue)) (xs : List JsValue)
        (ids : List (Option JsValue)) (lv : String) (q : Rat),
        jlookup fs "indicators" = some (.jarr xs) →
        collectIds xs = .ok ids →
        jlookup fs "riskLevel" = some (.jstr lv) →
        jlookup fs "riskScore" = some (.jnum q) →
        strField (handleParsedAI (some (.jobj fs))) "riskLevel" = some lv
        ∧ numField (handleParsedAI (some (.jobj fs))) "riskScore" = some q) := by
  refine ⟨?_, ?_, rfl, ?_⟩
  · intro t lang h
    have heq : (ruleBasedScamAnalysis t lang).riskScore
        = max (min 100 (rawScoreOf clientPatterns (normText t))) 75 := by
      show (if (ruleBasedScamAnalysis t lang).riskLevel = RiskLevel.high
        then max (min 100 (rawScoreOf clientPatterns (normText t))) 75
        else min 100 (rawScoreOf clientPatterns (normText t))) = _
      rw [if_pos h]
    rw [heq]
    exact le_max_right _ _
  · intro t h
    have heq : (serveRuleBasedAnalysis t).riskScore
        = max (min 100 (edgeRawScore (normText t))) 75 := by
      show (if (serveRuleBasedAnalysis t).riskLevel = RiskLevel.high
        then max (min 100 (edgeRawScore (normText t))) 75
        else min 100 (edgeRawScore (normText t))) = _
      rw [if_pos h]
    rw [heq]
    exact le_max_right _ _
  · intro fs xs ids lv q h1 h2 h3 h4
    have hbf : handleParsedAI (some (.jobj fs)) = HttpOutcome.success (.jobj (setField fs
        "indicators" (.jarr (xs ++ (indicatorTypes.filter
          (fun ty => !(ids.any (fun i => idMatches i ty)))).map mkBackfillIndicator)))) := by
      simp only [handleParsedAI, backfillIndicators, h1, h2]
    constructor
    · rw [hbf]
      refine strField_success_obj _ _ lv ?_
      rw [jlookup_setField_ne fs "indicators" "riskLevel" _ (by decide)]
      exact h3
    · rw [hbf]
      refine numField_success_obj _ _ q ?_
      rw [jlookup_setField_ne fs "indicators" "riskScore" _ (by decide)]
      exact h4

/-- Witness for C3 (amended): the floor clause on a transcript the
client scorer rates high, and the AI pass-through clause on a decoded
response labelled high with score 60. -/
theorem high_risk_floor_by_path_witness :
    75 ≤ (ruleBasedScamAnalysis "bank otp immediately".data "en").riskScore
    ∧ strField (handleParsedAI (some (.jobj noFloorFields))) "riskLevel" = some "high"
    ∧ numField (handleParsedAI (some (.jobj noFloorFields))) "riskScore" = some 60 :=
  ⟨high_risk_floor_by_path.1 "bank otp immediately".data "en" (by decide),
   (high_risk_floor_by_path.2.2.2 noFloorFields [] [] "high" 60 rfl rfl rfl rfl).1,
   (high_risk_floor_by_path.2.2.2 noFloorFields [] [] "high" 60 rfl rfl rfl rfl).2⟩

/-- Counterexample to C3 as stated: a decoded AI response with
riskLevel high and riskScore 60 is returned with status 200, riskLevel
high and riskScore 60 < 75 — no floor correction on the AI path. -/
theorem high_risk_floor_counterexample :
    strField (handleParsedAI (some (.jobj noFloorFields))) "riskLevel" = some "high"
    ∧ numField (handleParsedAI (some (.jobj noFloorFields))) "riskScore" = some 60
    ∧ statusOf (handleParsedAI (some (.jobj noFloorFields))) = 200
    ∧ ¬ ((75 : Rat) ≤ 60) := by
  refine ⟨rfl, rfl, rfl, by norm_num⟩

/-- Fields of a decoded AI response that violates the result schema
(unknown riskLevel enum value, non-numeric score) yet decodes fine. -/
def invalidSchemaFields : List (String × JsValue) :=
  [("riskLevel", .jstr "banana"), ("riskScore", .jstr "not-a-number"),
   ("indicators", .jarr []), ("guidance", .jarr [])]

/-- C4 (amended): only a thrown `JSON.parse` is recovered to the
neutral default (riskLevel medium, riskScore 50, seven backfilled
indicators, the cautious guidance line) with status 200. A successfully
decoded value is *not* schema-validated: if it carries an array
`indicators` property it is returned as-is with 200; if it does not,
the backfill throws a TypeError that escapes to the catch-all 500
handler. -/
theorem malformed_ai_recovery :
    (statusOf (handleParsedAI none) = 200
      ∧ strField (handleParsedAI none) "riskLevel" = some "medium"
      ∧ numField (handleParsedAI none) "riskScore" = some 50
      ∧ bodyField (handleParsedAI none) "guidance"
          = some (.jarr [.jstr "Unable to fully analyze. Please be cautious."])
      ∧ indicatorCount (handleParsedAI none) = some 7)
    ∧ (∀ v : JsValue, indicatorsArrayOf v = none →
        handleParsedAI (some v) = HttpOutcome.failure 500 "TypeError")
    ∧ (∀ (fs : List (String × JsValue)) (xs : List JsValue)
        (ids : List (Option JsValue)),
        jlookup fs "indicators" = some (.jarr xs) →
        collectIds xs = .ok ids →
        statusOf (handleParsedAI (some (.jobj fs))) = 200) := by
  refine ⟨⟨rfl, rfl, rfl, rfl, rfl⟩, ?_, ?_⟩
  · intro v h
    cases v with
    | jobj fs =>
      cases hl : jlookup fs "indicators" with
      | none => simp only [handleParsedAI, backfillIndicators, hl]
      | some w =>
        cases w with
        | jarr xs =>
          exfalso
          have h' : (match jlookup fs "indicators" with
            | some (JsValue.jarr ys) => some ys
            | _ => none) = (none : Option (List JsValue)) := h
          rw [hl] at h'
          simp at h'
        | jnull => simp only [handleParsedAI, backfillIndicators, hl]
        | jbool b => simp only [handleParsedAI, backfillIndicators, hl]
        | jnum q => simp only [handleParsedAI, backfillIndicators, hl]
        | jstr s => simp only [handleParsedAI, backfillIndicators, hl]
        | jobj gs => simp only [handleParsedAI, backfillIndicators, hl]
    | jnull => rfl
    | jbool b => rfl
    | jnum q => rfl
    | jstr s => rfl
    | jarr xs => rfl
  · intro fs xs ids h1 h2
    have hbf : handleParsedAI (some (.jobj fs)) = HttpOutcome.success (.jobj (setField fs
        "indicators" (.jarr (xs ++ (indicatorTypes.filter
          (fun ty => !(ids.any (fun i => idMatches i ty)))).map mkBackfillIndicator)))) := by
      simp only [handleParsedAI, backfillIndicators, h1, h2]
    rw [hbf]
    rfl

/-- Witness for C4 (amended): a decoded boolean has no indicators array
and yields the 500 TypeError, while a decoded object with an empty
indicators array yields 200. -/
theorem malformed_ai_recovery_witness :
    indicatorsArrayOf (JsValue.jbool true) = none
    ∧ handleParsedAI (some (JsValue.jbool true)) = HttpOutcome.failure 500 "TypeError"
    ∧ statusOf (handleParsedAI (some (.jobj [("indicators", .jarr [])]))) = 200 :=
  ⟨rfl, malformed_ai_recovery.2.1 (JsValue.jbool true) rfl,
   malformed_ai_recovery.2.2 [("indicators", .jarr [])] [] [] rfl rfl⟩

/-- Counterexample to C4 as stated: the decoded value `null` fails
schema validation but is *not* recovered to the neutral default — the
endpoint answers 500, not 200; and a decoded object with an invalid
riskLevel enum value and a non-numeric score is passed through
unchanged with 200 instead of being replaced by the neutral default. -/
theorem malformed_ai_recovery_counterexample :
    handleParsedAI (some JsValue.jnull) = HttpOutcome.failure 500 "TypeError"
    ∧ strField (handleParsedAI (some (.jobj invalidSchemaFields))) "riskLevel" = some "banana"
    ∧ statusOf (handleParsedAI (some (.jobj invalidSchemaFields))) = 200 := by
  refine ⟨rfl, rfl, rfl⟩

/-- C9: the edge-function and client-side rule-based scoring tables are
observably different — they disagree on a concrete transcript
(`"emergency"` scores 15 with a detected `emotional` indicator on the
client but 0 with none on the edge), their keyword sets differ for the
shared id `impersonation`, and their id-to-weight tables differ (the
client has an `emotional` rule of weight 15 that the edge table lacks
entirely) — so the two scorers are not extensionally equal as functions
from transcripts to (riskScore, detected-indicator set). -/
theorem scoring_tables_disagree :
    (∃ t : List Char,
        (ruleBasedScamAnalysis t "en").riskScore ≠ (serveRuleBasedAnalysis t).riskScore
        ∨ detectedIdsClient (ruleBasedScamAnalysis t "en")
            ≠ detectedIdsEdge (serveRuleBasedAnalysis t))
    ∧ ((clientPatterns.find? (fun p => p.id == "impersonation")).map
          (fun p => p.keywords)
        ≠ (edgePatterns.find? (fun p => p.id == "impersonation")).map
          (fun p => p.keywords))
    ∧ clientPatterns.map (fun p => (p.id, p.weight))
        ≠ edgePatterns.map (fun p => (p.id, p.weight))
    ∧ (clientPatterns.find? (fun p => p.id == "emotional")).isSome = true
    ∧ edgePatterns.find? (fun p => p.id == "emotional") = none := by
  refine ⟨⟨"emergency".data, Or.inl (by decide)⟩, by decide, by decide, by decide, by decide⟩

/-- C10: the rule-based scorer is monotone under transcript extension:
appending text preserves the raw (pre-clamp) score ordering and every
detected indicator id, for both the client scorer and the edge rule
branch, because lower-casing, trimming and substring containment
preserve keyword matches under appends. -/
theorem rule_scorer_monotone_under_append (t s : List Char) (lang : String) :
    rawScoreOf clientPatterns (normText t) ≤ rawScoreOf clientPatterns (normText (t ++ s))
    ∧ edgeRawScore (normText t) ≤ edgeRawScore (normText (t ++ s))
    ∧ (∀ x : String, x ∈ detectedIdsClient (ruleBasedScamAnalysis t lang) →
        x ∈ detectedIdsClient (ruleBasedScamAnalysis (t ++ s) lang))
    ∧ (∀ x : String, x ∈ detectedIdsEdge (serveRuleBasedAnalysis t) →
        x ∈ detectedIdsEdge (serveRuleBasedAnalysis (t ++ s))) :=
  ⟨rawScoreOf_norm_append clientPatterns clientPatterns_weight_nonneg t s,
   edgeRawScore_norm_append t s,
   fun x hx => detectedIdsClient_mono t s lang x hx,
   fun x hx => detectedIdsEdge_mono t s x hx⟩

/-- Witness for C10: the `otp_request` indicator detected on
`"share otp"` stays detected after appending `" now"`, on both rule
paths. -/
theorem rule_scorer_monotone_under_append_witness :
    ("otp_request" ∈ detectedIdsClient (ruleBasedScamAnalysis "share otp".data "en")
      ∧ "otp_request" ∈ detectedIdsClient
          (ruleBasedScamAnalysis ("share otp".data ++ " now".data) "en"))
    ∧ ("otp_request" ∈ detectedIdsEdge (serveRuleBasedAnalysis "share otp".data)
      ∧ "otp_request" ∈ detectedIdsEdge
          (serveRuleBasedAnalysis ("share otp".data ++ " now".data))) :=
  ⟨⟨by decide,
    (rule_scorer_monotone_under_append "share otp".data " now".data "en").2.2.1
      "otp_request" (by decide)⟩,
   ⟨by decide,
    (rule_scorer_monotone_under_append "share otp".data " now".data "en").2.2.2
      "otp_request" (by decide)⟩⟩

end ScamGuard
